import Mathlib

/-!
Verification development for the `data_collecting` library.

Part 1 models `data_collecting/connection.py` (`Connection.receive` and its
helpers `_keep_timeout` / `_set_timeout`) as pure functions over an explicit
event schedule.  Part 2 models the supervisor loop of
`data_collecting/data_collector.py` (`BaseDataCollector.run`, `_connect`,
`_collect`, `stop`) as an interpreter over a script of connection outcomes.

Time is modelled with integers (discrete time).  The model clock starts at 0 at the moment
`receive` is entered; Python's `time.time()` is strictly positive in any real
execution, so the code's truthiness test `if not start_time` is modelled as a
test on `Option` (it distinguishes `None` from a stored timestamp).
-/

namespace DC

/-- Byte strings are lists of natural numbers (one per byte). -/
abbrev Bytes := List Nat

/-- Python's `bytes.find`: the least index at which `pat` occurs as a
contiguous sub-sequence of `data`, or `none` (Python: `-1`).  Like Python,
the empty pattern is found at index 0. -/
def bfind (data pat : Bytes) : Option Nat :=
  (List.range (data.length + 1)).find? (fun i => pat.isPrefixOf (data.drop i))

/-- Configuration fields of a `Connection`: `recv_timeout` and
`max_msg_delay` from `Connection.__init__`. -/
structure Config where
  recvTimeout : ℤ
  maxMsgDelay : ℤ
  deriving DecidableEq

/-- Errors a `receive` call can raise.
`timeout` is `socket.timeout`; `closed` is the `ConnectionAbortedError`
raised on a zero-length read; `valueError` is the `ValueError` raised by
`socket.settimeout` on a negative argument; `blockingErr` is the
`BlockingIOError` of a non-blocking (`settimeout(0)`) read with no data. -/
inductive RxErr
  | timeout
  | closed
  | valueError
  | blockingErr
  deriving DecidableEq

/-- Outcome of a `receive` call.  `hang` means the event schedule was
exhausted while the call was still blocked in `recv` (the call never
returns in that run). -/
inductive RxResult
  | ok (frame : Bytes)
  | err (e : RxErr)
  | hang
  deriving DecidableEq

/-- Observable state after a `receive` call:
the returned frame or error, the residual buffer `_recv_cache`, the socket
timeout, the total time the call blocked, and the number of `recv` calls
performed on the socket. -/
structure RxOut where
  result : RxResult
  cache : Bytes
  sockTimeout : ℤ
  clock : ℤ
  reads : Nat
  deriving DecidableEq

/-- One scheduled transport event: `(d, chunk)` means the pending `recv`
would be satisfied `d` time units after it starts, delivering `chunk`
(`[]` models a zero-length read, i.e. orderly close by the peer). -/
abbrev Event := ℤ × Bytes

/-- The `while True` loop of `Connection.receive`, translated line by line:
first look for the delimiter in `data` (storing the suffix after
`end_index + 2` in the cache — the literal `+ 2` of the source), otherwise
perform one socket `recv` under the current socket timeout `st`, append the
chunk, then update the socket timeout from `max_msg_delay` and the elapsed
time exactly as the source does (raising `ValueError` when the new timeout
is negative, as `settimeout` would). -/
def receiveLoop (cfg : Config) (delim : Bytes) :
    Option ℤ → ℤ → Bytes → ℤ → List Event → RxOut
  | _, now, data, st, [] =>
    -- the delimiter check is the first step of every iteration and does not
    -- depend on pending transport events, so it is repeated in both cases
    match bfind data delim with
    | some i =>
      { result := .ok (data.take i), cache := data.drop (i + 2),
        sockTimeout := st, clock := now, reads := 0 }
    | none =>
      { result := .hang, cache := [], sockTimeout := st,
        clock := now, reads := 0 }
  | startTime, now, data, st, (d, chunk) :: rest =>
    match bfind data delim with
    | some i =>
      { result := .ok (data.take i), cache := data.drop (i + 2),
        sockTimeout := st, clock := now, reads := 0 }
    | none =>
        if d < st ∨ (d = 0 ∧ st = 0) then
          -- the blocking recv returns `chunk` after `d`
          if chunk = [] then
            { result := .err .closed, cache := [], sockTimeout := st,
              clock := now + d, reads := 1 }
          else
            match startTime with
            | none =>
              if cfg.maxMsgDelay < 0 then
                { result := .err .valueError, cache := [], sockTimeout := st,
                  clock := now + d, reads := 1 }
              else
                let r := receiveLoop cfg delim (some (now + d)) (now + d)
                  (data ++ chunk) cfg.maxMsgDelay rest
                { r with reads := r.reads + 1 }
            | some t0 =>
              let newTo := cfg.maxMsgDelay - ((now + d) - t0)
              if newTo < 0 then
                { result := .err .valueError, cache := [], sockTimeout := st,
                  clock := now + d, reads := 1 }
              else
                let r := receiveLoop cfg delim (some t0) (now + d)
                  (data ++ chunk) newTo rest
                { r with reads := r.reads + 1 }
        else if st = 0 then
          -- settimeout(0) put the socket in non-blocking mode
          { result := .err .blockingErr, cache := [], sockTimeout := st,
            clock := now, reads := 1 }
        else
          -- recv blocked for the full timeout `st`, then raised
          { result := .err .timeout, cache := [], sockTimeout := st,
            clock := now + st, reads := 1 }

/-- `Connection.receive`, including the `_keep_timeout` wrapper:
set the socket timeout to `recv_timeout` on entry (a negative configured
`recv_timeout` makes the entry `settimeout` itself raise, before the cache
is touched), clear the cache into `data`, set `start_time` when the cache
was non-empty, run the loop, and restore the socket timeout to
`recv_timeout` in the `finally` clause on every path on which the call
actually returns. `st0` is the socket timeout in force before the call. -/
def receive (cfg : Config) (delim : Bytes) (st0 : ℤ) (cache : Bytes)
    (sched : List Event) : RxOut :=
  if cfg.recvTimeout < 0 then
    { result := .err .valueError, cache := cache, sockTimeout := st0,
      clock := 0, reads := 0 }
  else
    let startTime : Option ℤ := if cache = [] then none else some 0
    let r := receiveLoop cfg delim startTime 0 cache cfg.recvTimeout sched
    match r.result with
    | .hang => r
    | _ => { r with sockTimeout := cfg.recvTimeout }

/-! ## Part 2: the supervisor loop of `BaseDataCollector` -/

/-- Exception kinds flowing through the supervisor.
`addrErr` stands for both `socket.herror` and `socket.gaierror`;
`sockTimeout` is `socket.timeout`; `refused` is `ConnectionRefusedError`;
`aborted` is `ConnectionAbortedError`; `osErr` is any other `OSError`;
`corrupted` is `CorruptedDataError`; `decodeErr` is the
`UnicodeDecodeError` (a `ValueError`, neither an `OSError` nor a
`CorruptedDataError`) raised by `data.decode()` in `_collect`'s
corrupted-frame log line; `appErr` is any other exception that is not an
`OSError` and not a `CorruptedDataError` (an application error). -/
inductive Exn
  | addrErr
  | sockTimeout
  | refused
  | aborted
  | osErr
  | corrupted
  | decodeErr
  | appErr
  deriving DecidableEq

/-- Observable actions of one `run` execution, in order. -/
inductive Act
  | connectAttempt
  | hookCall
  | frameDelivered
  | corruptedLogged
  | connClosed
  | cooldownWait (blocked : Bool)
  deriving DecidableEq

/-- Outcome of one `_collect` call, i.e. one `receive` plus the data
callback: either the receive raises, or a frame is delivered and the
callback's own behaviour is given.  A corrupted frame is split by whether
its bytes decode as UTF-8, because `_collect`'s handler for
`CorruptedDataError` calls `data.decode()` while logging:
`frameCorrupted` is a corrupted frame whose bytes decode, and
`frameCorruptedNonUtf8` one whose bytes do not. -/
inductive CollectEvent
  | frameOk
  | frameCorrupted
  | frameCorruptedNonUtf8
  | frameCallbackOs
  | frameCallbackApp
  | recvTimeout
  | recvClosed
  | recvOs
  deriving DecidableEq

/-- One step of the inner receive loop: either the external controller
calls `stop()` at this point, or one `_collect` call happens with the
given outcome. -/
inductive SessItem
  | stopCall
  | ev (e : CollectEvent)
  deriving DecidableEq

/-- Outcome of one connect attempt (`connect` inside `_connect`):
either the connection is established and the session then follows `items`,
or `socket.create_connection` raises. -/
inductive ConnectOutcome
  | ok (items : List SessItem)
  | addrErr
  | timedOut
  | refused
  | osErr
  deriving DecidableEq

/-- One `_collect` call: receive a frame, deliver it to the callback, and
catch exactly `CorruptedDataError` at that single call site (the
`try/except CorruptedDataError` of `BaseDataCollector._collect`).  The
handler logs `"%s: %s" % (str(error), data.decode())`: when the corrupted
frame's bytes decode as UTF-8 it logs and returns normally, but when they
do not, `data.decode()` itself raises `UnicodeDecodeError`, which escapes
`_collect`.  Every other callback exception escapes unchanged.  Returns
the actions performed and the exception escaping `_collect`, if any. -/
def collectCall (e : CollectEvent) : List Act × Option Exn :=
  match e with
  | .recvTimeout => ([], some .sockTimeout)
  | .recvClosed => ([], some .aborted)
  | .recvOs => ([], some .osErr)
  | .frameOk => ([.frameDelivered], none)
  | .frameCorrupted => ([.frameDelivered, .corruptedLogged], none)
  | .frameCorruptedNonUtf8 => ([.frameDelivered], some .decodeErr)
  | .frameCallbackOs => ([.frameDelivered], some .osErr)
  | .frameCallbackApp => ([.frameDelivered], some .appErr)

/-- How a session (the `while not self._to_stop.is_set(): self._collect(...)`
loop) ends: the stop flag was observed, an exception escaped `_collect`, or
the script ran out while the loop was still going. -/
inductive SessExit
  | stopped
  | raised (e : Exn)
  | fuel
  deriving DecidableEq

/-- Result of a session: final stop-flag value, actions, and how it ended. -/
structure SessRes where
  flag : Bool
  acts : List Act
  exit : SessExit
  deriving DecidableEq

/-- The inner loop of `run`: check the stop flag before every `_collect`
call; a `stopCall` item sets the (monotone) flag. -/
def runSession (flag : Bool) : List SessItem → SessRes
  | [] => { flag := flag, acts := [], exit := if flag then .stopped else .fuel }
  | .stopCall :: rest => runSession true rest
  | .ev e :: rest =>
    if flag then { flag := flag, acts := [], exit := .stopped }
    else
      match collectCall e with
      | (acts1, some ex) => { flag := flag, acts := acts1, exit := .raised ex }
      | (acts1, none) =>
        let r := runSession flag rest
        { r with acts := acts1 ++ r.acts }

/-- How one iteration of `run`'s `try` block ends: normal completion
(including exceptions absorbed by `_connect`), an exception propagating
into `run`, or script exhaustion. -/
inductive AttemptExit
  | normal
  | raised (e : Exn)
  | fuel
  deriving DecidableEq

/-- Result of one connect-plus-session attempt. -/
structure AttemptRes where
  flag : Bool
  acts : List Act
  exit : AttemptExit
  deriving DecidableEq

/-- The exceptions absorbed by `_connect`'s `except` clauses around the
yielded session: `ConnectionAbortedError`, `socket.timeout`, `OSError`. -/
def absorbable : Exn → Bool
  | .aborted => true
  | .sockTimeout => true
  | .osErr => true
  | _ => false

/-- One execution of `with self._connect() as connection: ...` in `run`:
the connect call itself may raise (those exceptions propagate into `run`
uncaught by `_connect`, whose handlers only cover the yielded body); on
success the handler's connected hook runs, then the session; the
`with connect(...)` block closes the connection on every exit path, and
`_connect` absorbs `absorbable` exceptions escaping the session. -/
def runAttempt (flag : Bool) : ConnectOutcome → AttemptRes
  | .addrErr => ⟨flag, [.connectAttempt], .raised .addrErr⟩
  | .timedOut => ⟨flag, [.connectAttempt], .raised .sockTimeout⟩
  | .refused => ⟨flag, [.connectAttempt], .raised .refused⟩
  | .osErr => ⟨flag, [.connectAttempt], .raised .osErr⟩
  | .ok items =>
    let s := runSession flag items
    match s.exit with
    | .fuel => ⟨s.flag, .connectAttempt :: .hookCall :: s.acts, .fuel⟩
    | .stopped =>
      ⟨s.flag, .connectAttempt :: .hookCall :: (s.acts ++ [.connClosed]), .normal⟩
    | .raised e =>
      if absorbable e then
        ⟨s.flag, .connectAttempt :: .hookCall :: (s.acts ++ [.connClosed]), .normal⟩
      else
        ⟨s.flag, .connectAttempt :: .hookCall :: (s.acts ++ [.connClosed]), .raised e⟩

/-- How `run` ends: returns, an exception escapes it, or the script is
exhausted mid-loop. -/
inductive RunExit
  | returned
  | raised (e : Exn)
  | fuel
  deriving DecidableEq

/-- The `while not was_stopped` loop of `BaseDataCollector.run`.  Each
script entry is a connect outcome plus a flag telling whether the external
controller calls `stop()` during that iteration's cooldown wait.  The
`except` clauses of `run` are translated case by case: `herror`/`gaierror`
break out of the loop; `socket.timeout` and `ConnectionRefusedError` are
logged and fall through to the cooldown wait, as does normal completion;
every other exception propagates out of `run`.  The wait
`self._to_stop.wait(timeout=...)` blocks for the full cooldown only when
the flag is unset and is not set during it, and returns the flag value
into `was_stopped`. -/
def runLoop (flag wasStopped : Bool) (script : List (ConnectOutcome × Bool)) :
    List Act × RunExit :=
  if wasStopped then ([], .returned)
  else
    match script with
    | [] => ([], .fuel)
    | (c, sw) :: rest =>
      let a := runAttempt flag c
      match a.exit with
      | .fuel => (a.acts, .fuel)
      | .raised .addrErr => (a.acts, .returned)
      | .raised .sockTimeout =>
        let f2 := a.flag || sw
        let r := runLoop f2 f2 rest
        (a.acts ++ .cooldownWait (!f2) :: r.1, r.2)
      | .raised .refused =>
        let f2 := a.flag || sw
        let r := runLoop f2 f2 rest
        (a.acts ++ .cooldownWait (!f2) :: r.1, r.2)
      | .normal =>
        let f2 := a.flag || sw
        let r := runLoop f2 f2 rest
        (a.acts ++ .cooldownWait (!f2) :: r.1, r.2)
      | .raised e => (a.acts, .raised e)

/-- `BaseDataCollector.run`: `was_stopped` starts as `False` regardless of
the stop flag; `stopBefore` tells whether `stop()` was already called
before `run` started. -/
def run (stopBefore : Bool) (script : List (ConnectOutcome × Bool)) :
    List Act × RunExit :=
  runLoop stopBefore false script

/-- Exception kinds that model transport-level failures (`OSError` and its
subclasses as raised by the socket layer, including address-resolution
errors), as opposed to application errors, decode errors and
corrupted-data signals. -/
def isTransportExn : Exn → Bool
  | .appErr => false
  | .corrupted => false
  | .decodeErr => false
  | _ => true

/-- True when a run exit is an escaping transport-kind exception. -/
def escapedTransport : RunExit → Bool
  | .raised e => isTransportExn e
  | _ => false

/-! ## Helper lemmas about `receive` -/

theorem receive_parts (cfg : Config) (delim : Bytes) (st0 : ℤ) (cache : Bytes)
    (sched : List Event) (h : ¬ cfg.recvTimeout < 0) :
    (receive cfg delim st0 cache sched).result =
      (receiveLoop cfg delim (if cache = [] then none else some 0) 0 cache
        cfg.recvTimeout sched).result ∧
    (receive cfg delim st0 cache sched).cache =
      (receiveLoop cfg delim (if cache = [] then none else some 0) 0 cache
        cfg.recvTimeout sched).cache ∧
    (receive cfg delim st0 cache sched).clock =
      (receiveLoop cfg delim (if cache = [] then none else some 0) 0 cache
        cfg.recvTimeout sched).clock ∧
    (receive cfg delim st0 cache sched).reads =
      (receiveLoop cfg delim (if cache = [] then none else some 0) 0 cache
        cfg.recvTimeout sched).reads := by
  simp only [receive, if_neg h]
  generalize receiveLoop cfg delim (if cache = [] then none else some 0) 0 cache
    cfg.recvTimeout sched = r
  rcases r with ⟨res, ca, stt, cl, rd⟩
  cases res <;> simp

theorem receiveLoop_err_cache (cfg : Config) (delim : Bytes) :
    ∀ (sched : List Event) (startTime : Option ℤ) (now st : ℤ) (data : Bytes)
      (e : RxErr),
      (receiveLoop cfg delim startTime now data st sched).result = .err e →
      (receiveLoop cfg delim startTime now data st sched).cache = [] := by
  intro sched
  induction sched with
  | nil =>
    intro startTime now st data e he
    simp only [receiveLoop] at he ⊢
    rcases h : bfind data delim with _ | i <;> simp_all [h]
  | cons ev rest ih =>
    intro startTime now st data e he
    obtain ⟨d, chunk⟩ := ev
    cases startTime with
    | none =>
      simp only [receiveLoop] at he ⊢
      rcases h : bfind data delim with _ | i <;> simp only [h] at he ⊢
      · split_ifs at he ⊢ <;> simp_all
      · simp_all
    | some t0 =>
      simp only [receiveLoop] at he ⊢
      rcases h : bfind data delim with _ | i <;> simp only [h] at he ⊢
      · split_ifs at he ⊢ <;> simp_all
      · simp_all

theorem receiveLoop_clock_le (cfg : Config) (delim : Bytes) :
    ∀ (sched : List Event) (t0 now st : ℤ) (data : Bytes),
      0 ≤ st → now = t0 + cfg.maxMsgDelay - st →
      (receiveLoop cfg delim (some t0) now data st sched).clock ≤
        t0 + cfg.maxMsgDelay := by
  intro sched
  induction sched with
  | nil =>
    intro t0 now st data hst hnow
    simp only [receiveLoop]
    rcases h : bfind data delim with _ | i <;> simp only [h] <;> omega
  | cons ev rest ih =>
    intro t0 now st data hst hnow
    obtain ⟨d, chunk⟩ := ev
    simp only [receiveLoop]
    rcases h : bfind data delim with _ | i <;> simp only [h]
    · split_ifs with hc hch hto <;> (try simp) <;> (try omega)
      have hrec := ih t0 (now + d) (cfg.maxMsgDelay - (now + d - t0))
        (data ++ chunk) (by omega) (by omega)
      omega
    · omega

theorem receiveLoop_err_kind (cfg : Config) (delim : Bytes) :
    ∀ (sched : List Event) (t0 now st : ℤ) (data : Bytes) (e : RxErr),
      0 < st → now = t0 + cfg.maxMsgDelay - st →
      (receiveLoop cfg delim (some t0) now data st sched).result = .err e →
      e = .timeout ∨ e = .closed := by
  intro sched
  induction sched with
  | nil =>
    intro t0 now st data e hst hnow he
    simp only [receiveLoop] at he
    rcases h : bfind data delim with _ | i <;> simp only [h] at he <;> simp at he
  | cons ev rest ih =>
    intro t0 now st data e hst hnow he
    obtain ⟨d, chunk⟩ := ev
    simp only [receiveLoop] at he
    rcases h : bfind data delim with _ | i <;> simp only [h] at he
    · split_ifs at he with hc hch hto
      · simp at he
        exact Or.inr he.symm
      · exact absurd hto (by omega)
      · dsimp only at he
        exact ih t0 (now + d) (cfg.maxMsgDelay - (now + d - t0)) (data ++ chunk) e
          (by omega) (by omega) he
      · exact absurd hst (by omega)
      · simp at he
        exact Or.inl he.symm
    · simp at he

/-! ## Claims about `Connection.receive` -/

/-- C1: the claim says that for EVERY delimiter byte-string, N sequential
`receive` calls return exactly the N original payloads.  The code computes
the residual as `data[end_index + 2:]` with a hard-coded 2 instead of
`len(end)`, so for the one-byte delimiter `b"\n"` and the stream
`b"a\nb\n"` arriving in one chunk, the first call correctly returns `b"a"`
but retains `b"\n"` instead of `b"b\n"`; the second call then returns
`b""` instead of the original payload `b"b"`.  This contradicts the code's
own comment ("store extra bytes that have been received in the cache") and
the documented support for caller-chosen end markers, so it is a slip in
the code rather than a spec error. -/
theorem c1_short_delimiter_loses_bytes :
    (receive ⟨60, 10⟩ [10] 60 [] [(1, [97, 10, 98, 10])]).result = .ok [97] ∧
    (receive ⟨60, 10⟩ [10] 60 [] [(1, [97, 10, 98, 10])]).cache = [10] ∧
    (receive ⟨60, 10⟩ [10] 60 [10] []).result = .ok [] ∧
    (receive ⟨60, 10⟩ [10] 60 [10] []).result ≠ .ok [98] := by decide

/-- C3 counterexample: when the residual buffer already holds the first
bytes of the frame (`b"a"` here, with the delimiter `b"\r\n"` absent), the
first transport read of the call is still governed by the idle timeout
(60), not by the max-message-delay accounting; with the next chunk taking
50 time units the call blocks 50 units — more than `max_msg_delay = 10` —
after the frame's first bytes were present, without completing the frame
(it then dies with `ValueError`).  This refutes the claimed bound for the
residual-buffer case the claim explicitly includes. -/
theorem c3_residual_start_exceeds_delay :
    (receive ⟨60, 10⟩ [13, 10] 60 [97] [(50, [98])]).clock = 50 ∧
    ¬ ((receive ⟨60, 10⟩ [13, 10] 60 [97] [(50, [98])]).clock ≤ 10) ∧
    (receive ⟨60, 10⟩ [13, 10] 60 [97] [(50, [98])]).result =
      .err .valueError := by decide

/-- C3 amended: when the frame starts fresh — the residual buffer is empty,
so the frame's first chunk arrives by a transport read at time `d1` — the
total time the call blocks, measured from the call start, is at most
`d1 + max_msg_delay` on every outcome: at most `max_msg_delay` after the
first chunk's arrival, the remaining allowance being decremented after
every subsequent chunk. -/
theorem c3_fresh_frame_time_bound (cfg : Config) (delim : Bytes) (st0 d1 : ℤ)
    (c1 : Bytes) (rest : List Event)
    (hmd : 0 ≤ cfg.maxMsgDelay) (hrt : 0 ≤ cfg.recvTimeout) (hd : 0 ≤ d1) :
    (receive cfg delim st0 [] ((d1, c1) :: rest)).clock ≤
      d1 + cfg.maxMsgDelay := by
  obtain ⟨-, -, hclock, -⟩ :=
    receive_parts cfg delim st0 [] ((d1, c1) :: rest) (not_lt.mpr hrt)
  have hstart : (if ([] : Bytes) = [] then (none : Option ℤ) else some 0) = none := rfl
  rw [hstart] at hclock
  rw [hclock]
  simp only [receiveLoop]
  rcases h : bfind [] delim with _ | i <;> simp only [h]
  · split_ifs with hc hch hmd0 <;> (try simp) <;> (try omega)
    have hrec := receiveLoop_clock_le cfg delim rest d1 d1
      cfg.maxMsgDelay c1 hmd (by omega)
    omega
  · simp
    omega

/-- C3 amended, witness at a concrete input. -/
theorem c3_fresh_frame_time_bound_witness :
    (0:ℤ) ≤ 10 ∧ (0:ℤ) ≤ 60 ∧ (0:ℤ) ≤ 5 ∧
    (receive ⟨60, 10⟩ [13, 10] 60 [] [(5, [97, 13, 10])]).clock ≤ 5 + 10 :=
  ⟨by decide, by decide, by decide,
    c3_fresh_frame_time_bound ⟨60, 10⟩ [13, 10] 60 5 [97, 13, 10] []
      (by decide) (by decide) (by decide)⟩

/-- C4 counterexample: the claim says the timeout machinery raises nothing
but a timeout condition, in particular no error from setting the socket
timeout to a non-positive remaining allowance.  Starting a call with a
non-empty residual (`b"a"`), the code sets `start_time` at call entry but
leaves the socket timeout at `recv_timeout = 60` for the first read; when
that read returns after 50 units, it calls
`settimeout(max_msg_delay - 50) = settimeout(-40)`, which raises
`ValueError`, not `socket.timeout`. -/
theorem c4_nonpositive_timeout_value_error :
    (receive ⟨60, 10⟩ [13, 10] 60 [97] [(50, [98])]).result =
      .err .valueError ∧
    (receive ⟨60, 10⟩ [13, 10] 60 [97] [(50, [98])]).result ≠
      .err .timeout := by decide

/-- C4 amended: when the call starts with an empty residual buffer (and the
configured timeouts are positive), the only failures the call can raise
are the timeout condition — the same kind for the idle timer and the
max-message-delay timer — and the connection-closed condition; in
particular no `ValueError` from a non-positive `settimeout` and no
non-blocking-mode error can occur. -/
theorem c4_empty_residual_timeout_kinds (cfg : Config) (delim : Bytes)
    (st0 : ℤ) (sched : List Event) (e : RxErr)
    (hmd : 0 < cfg.maxMsgDelay) (hrt : 0 < cfg.recvTimeout)
    (he : (receive cfg delim st0 [] sched).result = .err e) :
    e = .timeout ∨ e = .closed := by
  obtain ⟨hres, -, -, -⟩ := receive_parts cfg delim st0 [] sched (by omega)
  have hstart : (if ([] : Bytes) = [] then (none : Option ℤ) else some 0) = none := rfl
  rw [hres, hstart] at he
  cases sched with
  | nil =>
    simp only [receiveLoop] at he
    rcases h : bfind [] delim with _ | i <;> simp only [h] at he <;> simp at he
  | cons ev rest =>
    obtain ⟨d, chunk⟩ := ev
    simp only [receiveLoop] at he
    rcases h : bfind [] delim with _ | i <;> simp only [h] at he
    · split_ifs at he with hc hch hmd0
      · simp at he
        exact Or.inr he.symm
      · exact absurd hmd0 (by omega)
      · dsimp only at he
        exact receiveLoop_err_kind cfg delim rest (0 + d) (0 + d)
          cfg.maxMsgDelay ([] ++ chunk) e hmd (by omega) he
      · exact absurd hrt (by omega)
      · simp at he
        exact Or.inl he.symm
    · simp at he

/-- C4 amended, witness at a concrete input: an idle-timer expiry surfaces
as the timeout kind. -/
theorem c4_empty_residual_timeout_kinds_witness :
    (0:ℤ) < 10 ∧ (0:ℤ) < 60 ∧
    (receive ⟨60, 10⟩ [13, 10] 60 [] [(100, [97])]).result =
      .err .timeout ∧
    (RxErr.timeout = RxErr.timeout ∨ RxErr.timeout = RxErr.closed) :=
  ⟨by decide, by decide, by decide,
    c4_empty_residual_timeout_kinds ⟨60, 10⟩ [13, 10] 60 [(100, [97])]
      .timeout (by decide) (by decide) (by decide)⟩

/-- C9: whenever a `receive` call fails — timeout, connection closed, or
any other error — the residual buffer is empty afterwards: both the bytes
carried over from the previous call and any chunks read before the failure
are discarded (the cache is cleared on entry and only written back when a
complete frame is found). -/
theorem c9_residual_empty_after_error (cfg : Config) (delim : Bytes)
    (st0 : ℤ) (cache : Bytes) (sched : List Event) (e : RxErr)
    (hrt : 0 ≤ cfg.recvTimeout)
    (he : (receive cfg delim st0 cache sched).result = .err e) :
    (receive cfg delim st0 cache sched).cache = [] := by
  obtain ⟨hres, hca, -, -⟩ :=
    receive_parts cfg delim st0 cache sched (not_lt.mpr hrt)
  rw [hres] at he
  rw [hca]
  exact receiveLoop_err_cache cfg delim sched _ 0 cfg.recvTimeout cache e he

/-- C9, witness at a concrete input: leftover byte `b"c"` plus a timeout
leaves an empty residual. -/
theorem c9_residual_empty_after_error_witness :
    (0:ℤ) ≤ 60 ∧
    (receive ⟨60, 10⟩ [13, 10] 60 [99] [(100, [97])]).result =
      .err .timeout ∧
    (receive ⟨60, 10⟩ [13, 10] 60 [99] [(100, [97])]).cache = [] :=
  ⟨by decide, by decide,
    c9_residual_empty_after_error ⟨60, 10⟩ [13, 10] 60 [99] [(100, [97])]
      .timeout (by decide) (by decide)⟩

/-- C10: every `receive` call that actually returns — with a frame or with
any error — leaves the socket timeout restored to the configured
`recv_timeout`, because `_keep_timeout` restores it in a `finally` clause;
the timeout adjustments made for the max-message-delay policy never
persist past the call. -/
theorem c10_socket_timeout_restored (cfg : Config) (delim : Bytes)
    (st0 : ℤ) (cache : Bytes) (sched : List Event)
    (hrt : 0 ≤ cfg.recvTimeout)
    (hres : (receive cfg delim st0 cache sched).result ≠ .hang) :
    (receive cfg delim st0 cache sched).sockTimeout = cfg.recvTimeout := by
  simp only [receive, if_neg (not_lt.mpr hrt)] at hres ⊢
  generalize receiveLoop cfg delim (if cache = [] then none else some 0) 0 cache
    cfg.recvTimeout sched = r at hres ⊢
  rcases r with ⟨res, ca, stt, cl, rd⟩
  cases res <;> simp_all

/-- C10, witness at a concrete input: during the call the socket timeout is
changed to the max-message-delay allowance, yet a returning call restores
`recv_timeout`. -/
theorem c10_socket_timeout_restored_witness :
    (0:ℤ) ≤ 60 ∧
    (receive ⟨60, 10⟩ [13, 10] 60 [] [(1, [97]), (2, [13, 10])]).result ≠
      .hang ∧
    (receive ⟨60, 10⟩ [13, 10] 60 [] [(1, [97]), (2, [13, 10])]).sockTimeout =
      60 :=
  ⟨by decide, by decide,
    c10_socket_timeout_restored ⟨60, 10⟩ [13, 10] 60 [] [(1, [97]), (2, [13, 10])]
      (by decide) (by decide)⟩

/-! ## Helper lemmas about the supervisor -/

theorem runSession_raised :
    ∀ (items : List SessItem) (flag : Bool) (e : Exn),
      (runSession flag items).exit = .raised e →
      absorbable e = true ∨ e = .decodeErr ∨ e = .appErr := by
  intro items
  induction items with
  | nil =>
    intro flag e h
    cases flag <;> simp [runSession] at h
  | cons it rest ih =>
    intro flag e h
    cases it with
    | stopCall =>
      simp only [runSession] at h
      exact ih true e h
    | ev ce =>
      by_cases hf : flag
      · simp [runSession, hf] at h
      · cases ce <;> simp [runSession, hf, collectCall] at h <;>
          first
          | exact ih false e h
          | (subst h; decide)

theorem runAttempt_exit (flag : Bool) (c : ConnectOutcome) :
    ∀ e : Exn, (runAttempt flag c).exit = .raised e →
      (e = .osErr → c = .osErr) ∧
      (e = .addrErr ∨ e = .sockTimeout ∨ e = .refused ∨ e = .osErr ∨
        e = .decodeErr ∨ e = .appErr) := by
  intro e he
  cases c with
  | addrErr =>
    simp [runAttempt] at he
    subst he
    exact ⟨by decide, Or.inl rfl⟩
  | timedOut =>
    simp [runAttempt] at he
    subst he
    exact ⟨by decide, Or.inr (Or.inl rfl)⟩
  | refused =>
    simp [runAttempt] at he
    subst he
    exact ⟨by decide, Or.inr (Or.inr (Or.inl rfl))⟩
  | osErr =>
    simp [runAttempt] at he
    subst he
    exact ⟨fun _ => rfl, Or.inr (Or.inr (Or.inr (Or.inl rfl)))⟩
  | ok items =>
    simp only [runAttempt] at he
    rcases hx : (runSession flag items).exit with _ | ex | _ <;> rw [hx] at he
    · simp at he
    · rcases runSession_raised items flag ex hx with habs | hdec | happ
      · simp [habs] at he
      · subst hdec
        simp [absorbable] at he
        subst he
        exact ⟨fun hco => absurd hco (by decide),
          Or.inr (Or.inr (Or.inr (Or.inr (Or.inl rfl))))⟩
      · subst happ
        simp [absorbable] at he
        subst he
        exact ⟨fun hco => absurd hco (by decide),
          Or.inr (Or.inr (Or.inr (Or.inr (Or.inr rfl))))⟩
    · simp at he

theorem runLoop_raised_kind :
    ∀ (script : List (ConnectOutcome × Bool)) (flag ws : Bool) (e : Exn),
      (runLoop flag ws script).2 = .raised e →
      e = .appErr ∨ e = .osErr ∨ e = .decodeErr := by
  intro script
  induction script with
  | nil =>
    intro flag ws e h
    cases ws <;> simp [runLoop] at h
  | cons p rest ih =>
    intro flag ws e h
    obtain ⟨c, sw⟩ := p
    cases ws with
    | true => simp [runLoop] at h
    | false =>
      rw [runLoop.eq_def] at h
      simp only [Bool.false_eq_true, if_false] at h
      split at h
      · simp at h
      · simp at h
      · simp at h
        exact ih _ _ _ h
      · simp at h
        exact ih _ _ _ h
      · simp at h
        exact ih _ _ _ h
      · next a ex hne1 hne2 hne3 heq =>
        simp at h
        obtain ⟨hos, hkinds⟩ := runAttempt_exit flag c ex heq
        subst h
        rcases hkinds with h1 | h1 | h1 | h1 | h1 | h1
        · exact absurd h1 hne1
        · exact absurd h1 hne2
        · exact absurd h1 hne3
        · exact Or.inr (Or.inl h1)
        · exact Or.inr (Or.inr h1)
        · exact Or.inl h1

theorem runSession_stop_flag :
    ∀ items : List SessItem, runSession true items = ⟨true, [], .stopped⟩ := by
  intro items
  induction items with
  | nil => simp [runSession]
  | cons it rest ih =>
    cases it with
    | stopCall =>
      simp only [runSession]
      exact ih
    | ev ce => simp [runSession]

theorem runLoop_stopped (flag : Bool) (script : List (ConnectOutcome × Bool)) :
    runLoop flag true script = ([], .returned) := by
  rw [runLoop.eq_def]
  simp

/-! ## Claims about `BaseDataCollector.run` -/

/-- C2 counterexample: a transient transport error raised while connecting
that is neither `ConnectionRefusedError` nor `socket.timeout` — for example
`ConnectionResetError` or `OSError: network unreachable` from
`socket.create_connection` — matches none of `run`'s `except` clauses
(`_connect`'s handlers only cover the yielded receive phase) and so
propagates out of `run`, contradicting the claim that no transient
transport error ever escapes. -/
theorem c2_os_error_while_connecting_escapes :
    (run false [(.osErr, false)]).2 = .raised .osErr ∧
    isTransportExn .osErr = true := by decide

/-- C2 amended: as long as no connect attempt fails with a generic
`OSError` (only refused or timed-out connect failures, plus arbitrary
session behaviour), no transport-kind exception ever escapes `run`: every
transport error raised while receiving is absorbed, refused and timed-out
connects are retried, and an invalid address terminates the loop by
returning. -/
theorem c2_no_transport_error_escapes :
    ∀ (script : List (ConnectOutcome × Bool)) (flag ws : Bool),
      (∀ p ∈ script, p.1 ≠ ConnectOutcome.osErr) →
      escapedTransport (runLoop flag ws script).2 = false := by
  intro script
  induction script with
  | nil =>
    intro flag ws h
    cases ws <;> simp [runLoop, escapedTransport]
  | cons p rest ih =>
    intro flag ws h
    obtain ⟨c, sw⟩ := p
    have hc : c ≠ ConnectOutcome.osErr := h (c, sw) (List.mem_cons_self _ _)
    have hrest : ∀ q ∈ rest, q.1 ≠ ConnectOutcome.osErr :=
      fun q hq => h q (List.mem_cons_of_mem _ hq)
    cases ws with
    | true => simp [runLoop, escapedTransport]
    | false =>
      rw [runLoop.eq_def]
      simp only [Bool.false_eq_true, if_false]
      split
      · simp [escapedTransport]
      · simp [escapedTransport]
      · simp only []
        exact ih _ _ hrest
      · simp only []
        exact ih _ _ hrest
      · simp only []
        exact ih _ _ hrest
      · next a ex hne1 hne2 hne3 heq =>
        obtain ⟨hos, hkinds⟩ := runAttempt_exit flag c ex heq
        rcases hkinds with h1 | h1 | h1 | h1 | h1 | h1
        · exact absurd h1 hne1
        · exact absurd h1 hne2
        · exact absurd h1 hne3
        · exact absurd (hos h1) hc
        · subst h1
          simp [escapedTransport, isTransportExn]
        · subst h1
          simp [escapedTransport, isTransportExn]

/-- C2 amended, witness on a concrete script exercising a refused connect,
a receive-phase `OSError` and a timed-out connect: nothing escapes. -/
theorem c2_no_transport_error_escapes_witness :
    (∀ p ∈ ([(ConnectOutcome.refused, false),
        (ConnectOutcome.ok [.ev .frameOk, .ev .recvOs], false),
        (ConnectOutcome.timedOut, true)] : List (ConnectOutcome × Bool)),
      p.1 ≠ ConnectOutcome.osErr) ∧
    escapedTransport (runLoop false false
      [(ConnectOutcome.refused, false),
        (ConnectOutcome.ok [.ev .frameOk, .ev .recvOs], false),
        (ConnectOutcome.timedOut, true)]).2 = false :=
  ⟨by decide,
    c2_no_transport_error_escapes _ false false (by decide)⟩

/-- C5 counterexample: `run` initialises `was_stopped = False` without
consulting the stop event, so when `stop()` was called before `run()`
starts, the first loop iteration still makes a connect attempt (and even
invokes the connected hook), contradicting the claim that no connect
attempt is made. -/
theorem c5_stop_before_run_still_connects :
    Act.connectAttempt ∈ (run true [(.ok [], false)]).1 ∧
    Act.hookCall ∈ (run true [(.ok [], false)]).1 := by decide

/-- C5 amended: the stop flag is checked before each receive — once set, a
session performs no further receive and ends as stopped — and its value is
observed by each cooldown wait, after which `run` makes no further connect
attempt and returns; in particular a stop observed right after connecting
closes the connection and ends the run with no frame received.  (The flag
is however not checked before the very first connect attempt.) -/
theorem c5_stop_checks :
    (∀ items : List SessItem, runSession true items = ⟨true, [], .stopped⟩) ∧
    (∀ (flag : Bool) (script : List (ConnectOutcome × Bool)),
      runLoop flag true script = ([], .returned)) ∧
    (∀ (flag sw : Bool) (items : List SessItem)
        (rest : List (ConnectOutcome × Bool)),
      runLoop flag false ((.ok (.stopCall :: items), sw) :: rest) =
        ([.connectAttempt, .hookCall, .connClosed, .cooldownWait false],
          .returned)) := by
  refine ⟨runSession_stop_flag, runLoop_stopped, fun flag sw items rest => ?_⟩
  rw [runLoop.eq_def]
  simp only [runAttempt, runSession, runSession_stop_flag items,
    Bool.false_eq_true, if_false]
  simp [runLoop_stopped]

/-- C6: when a connect attempt fails with `socket.herror` or
`socket.gaierror` (both modelled by `addrErr`), `run` breaks out of its
loop immediately and returns: the trace from that attempt on is exactly
one connect attempt — no cooldown wait, no further connect attempt, and no
invocation of the connected hook — whatever the stop flag and the rest of
the script. -/
theorem c6_invalid_address_terminates (flag sw : Bool)
    (rest : List (ConnectOutcome × Bool)) :
    runLoop flag false ((ConnectOutcome.addrErr, sw) :: rest) =
      ([.connectAttempt], .returned) := by
  rw [runLoop.eq_def]
  simp [runAttempt]

/-- C7 amended: (1) a corrupted-data signal for a frame whose bytes decode
as UTF-8 is caught at the single call site invoking the data callback: the
session logs it and continues on the same connection — the connection is
not closed and the next frame is still delivered; (2) a
`CorruptedDataError` itself never escapes `run` on any script; (3) an
application error (one that is neither an `OSError` nor the decode error)
raised by the callback propagates out of `run`; (4) when the corrupted
frame's bytes are not valid UTF-8, the handler's own log line raises
`UnicodeDecodeError`, which closes the connection and escapes `run`.  (An
`OSError` raised by the callback is absorbed instead — see the
counterexample, which also exhibits (4) concretely.) -/
theorem c7_corrupted_isolated :
    (∀ rest : List SessItem,
      runSession false (.ev .frameCorrupted :: rest) =
        { flag := (runSession false rest).flag,
          acts := .frameDelivered :: .corruptedLogged ::
            (runSession false rest).acts,
          exit := (runSession false rest).exit }) ∧
    (∀ (flag ws : Bool) (script : List (ConnectOutcome × Bool)),
      (runLoop flag ws script).2 ≠ .raised .corrupted) ∧
    (∀ (sw : Bool) (items : List SessItem)
        (rest : List (ConnectOutcome × Bool)),
      runLoop false false ((.ok (.ev .frameCallbackApp :: items), sw) :: rest) =
        ([.connectAttempt, .hookCall, .frameDelivered, .connClosed],
          .raised .appErr)) ∧
    (∀ (sw : Bool) (items : List SessItem)
        (rest : List (ConnectOutcome × Bool)),
      runLoop false false
          ((.ok (.ev .frameCorruptedNonUtf8 :: items), sw) :: rest) =
        ([.connectAttempt, .hookCall, .frameDelivered, .connClosed],
          .raised .decodeErr)) := by
  refine ⟨fun rest => ?_, fun flag ws script h => ?_, fun sw items rest => ?_,
    fun sw items rest => ?_⟩
  · simp [runSession, collectCall]
  · rcases runLoop_raised_kind script flag ws .corrupted h with h1 | h1 | h1 <;>
      exact absurd h1 (by decide)
  · rw [runLoop.eq_def]
    simp [runAttempt, runSession, collectCall, absorbable]
  · rw [runLoop.eq_def]
    simp [runAttempt, runSession, collectCall, absorbable]

/-- C7 counterexample, refuting the claim in two ways on concrete runs:
an `OSError` raised by the data callback is caught by `_connect`'s
`except OSError` handler and treated as a transient connection failure —
`run` returns normally instead of propagating it; and a corrupted frame
whose bytes are not valid UTF-8 makes the handler's log line
(`data.decode()`) raise `UnicodeDecodeError`, so the connection is closed,
the next frame on it is never delivered, and the error escapes `run` —
the supervisor does not "log and continue on the same connection". -/
theorem c7_corruption_not_isolated :
    ((run false [(.ok [.ev .frameCallbackOs], true)]).2 = .returned ∧
      (run false [(.ok [.ev .frameCallbackOs], true)]).2 ≠ .raised .osErr) ∧
    ((run false [(.ok [.ev .frameCorruptedNonUtf8, .ev .frameOk], false)]).1 =
        [.connectAttempt, .hookCall, .frameDelivered, .connClosed] ∧
      (run false [(.ok [.ev .frameCorruptedNonUtf8, .ev .frameOk], false)]).2 =
        .raised .decodeErr) := by
  decide

end DC
